import Mathlib

/-!
Verification of the proximity-ranking core and the flash-message relay of the
Location-PopUp delivery app.

The embedding follows `src/app/(tabs)/index.tsx` (customer filtering, distance
attachment, distance sort, nearest-eligible scan) and `src/services/flash.ts`
(single-slot message relay).

Modelling conventions:
* JavaScript numbers used as coordinates are modelled as rationals (`ℚ`);
  the trigonometric haversine computation is modelled over the reals, i.e.
  floating point arithmetic is idealised as exact real arithmetic.
* `latitude: number | null` becomes `Option ℚ`.  JavaScript truthiness of a
  number (`!c.latitude`) is false for `null` and for `0`, which the model
  captures with `truthy`.
* `Array.prototype.sort` is stable (ES2019); since the comparator used by the
  code is consistent (it is comparison of the key `distance`, with `null`
  largest), the result of any stable sort agrees with insertion sort by the
  comparator-induced `≤`, which is what the model uses.
* The mutable module variable `_flashMessage` becomes explicit state passing.
-/

/-- Customer record as in the `Customer` type of `index.tsx`. -/
structure Customer where
  _id : String
  name : String
  address : String
  latitude : Option ℚ
  longitude : Option ℚ
  orderDetails : Option String
  deliveryPerson : Option String
  status : String
  deliveryDate : String
  createdAt : String
  updatedAt : String
deriving DecidableEq

/-- Device position (`currentLocation` state), when resolved. -/
structure Loc where
  latitude : ℚ
  longitude : ℚ
deriving DecidableEq

/-- Ranked entry: a customer spread together with the optional computed
distance (`{ ...c, distance }` in `customersWithDistance`). -/
structure Ranked where
  cust : Customer
  distance : Option ℤ
deriving DecidableEq

/-- Nearest-customer info: customer spread together with its (present)
distance, as returned by `getNearestCustomerInfo`. -/
structure NearestInfo where
  cust : Customer
  distance : ℤ
deriving DecidableEq

/-- JavaScript truthiness of an optional numeric field: `null` and `0` are
falsy (`!customer.latitude` in the source). -/
def truthy : Option ℚ → Bool
  | none => false
  | some x => decide (x ≠ 0)

/-! ### Flash message relay (`src/services/flash.ts`) -/

/-- State of the module-level slot `_flashMessage`. -/
def FlashState := Option String

/-- The function `setFlash`: overwrite the slot with the message. -/
def setFlash (message : String) (_s : FlashState) : FlashState := some message

/-- The function `consumeFlash`: return the slot content and reset the slot
to empty.  First component is the returned value, second the new state. -/
def consumeFlash (s : FlashState) : Option String × FlashState := (s, none)

/-- An operation against the flash relay. -/
inductive FlashOp where
  | setOp (m : String)
  | consumeOp
deriving DecidableEq

/-- Run a sequence of operations from a starting slot state, collecting the
values returned by the `consumeFlash` calls, in order. -/
def flashRun : FlashState → List FlashOp → List (Option String)
  | _, [] => []
  | s, FlashOp.setOp m :: ops => flashRun (setFlash m s) ops
  | s, FlashOp.consumeOp :: ops =>
      (consumeFlash s).1 :: flashRun (consumeFlash s).2 ops

/-- Number of `consumeFlash` calls in a trace that returned a message. -/
def countReturned (l : List (Option String)) : Nat :=
  (l.filter fun r => r.isSome).length

/-- Number of `setFlash` operations in a sequence. -/
def countSets (ops : List FlashOp) : Nat :=
  (ops.filter fun o => match o with | FlashOp.setOp _ => true | _ => false).length

/-- Fuel of the slot: 1 when it currently holds a message. -/
def slotFuel (s : FlashState) : Nat :=
  match s with | some _ => 1 | none => 0

theorem flashRun_le (ops : List FlashOp) : ∀ s : FlashState,
    countReturned (flashRun s ops) ≤ countSets ops + slotFuel s := by
  induction ops with
  | nil => intro s; simp [flashRun, countReturned, countSets]
  | cons o ops ih =>
    intro s
    cases o with
    | setOp m =>
      have h := ih (setFlash m s)
      simp [flashRun, countSets, countReturned, List.filter_cons,
        slotFuel, setFlash] at *
      omega
    | consumeOp =>
      have h := ih (consumeFlash s).2
      cases s with
      | none =>
        simp [flashRun, consumeFlash, countReturned, List.filter_cons,
          Option.isSome, countSets, slotFuel] at *
        omega
      | some m =>
        simp [flashRun, consumeFlash, countReturned, List.filter_cons,
          Option.isSome, countSets, slotFuel] at *
        omega

/-- C10: the flash relay is a single-slot, read-once store.  After
`setFlash m`, the immediately following `consumeFlash` returns `m` and leaves
the slot empty; `consumeFlash` on the empty slot returns `null`; two
consecutive consumes never both return a message; and over any operation
sequence the number of consumes that return a message is bounded by the
number of sets plus one for an initially full slot, so each stored message is
returned by at most one `consumeFlash`. -/
theorem flash_single_slot_read_once (s : FlashState) (m : String)
    (ops : List FlashOp) :
    consumeFlash (setFlash m s) = (some m, none) ∧
    consumeFlash none = (none, none) ∧
    (consumeFlash (consumeFlash s).2).1 = none ∧
    countReturned (flashRun s ops) ≤ countSets ops + slotFuel s := by
  refine ⟨rfl, rfl, rfl, flashRun_le ops s⟩

/-! ### Great-circle distance (`calculateDistance` in `index.tsx`) -/

/-- Two-argument arctangent as in `Math.atan2(y, x)`: the argument of the
complex number `x + y i` (with `atan2 0 0 = 0`). -/
noncomputable def atan2 (y x : ℝ) : ℝ := Complex.arg ⟨x, y⟩

/-- Degree-to-radian conversion `(x * Math.PI) / 180` applied to a
JavaScript number. -/
noncomputable def rad (x : ℚ) : ℝ := (x : ℝ) * Real.pi / 180

/-- The haversine intermediate `a` of `calculateDistance`:
`sin(dLat/2)^2 + cos(lat1) * cos(lat2) * sin(dLon/2)^2` in radians. -/
noncomputable def haverA (lat1 lon1 lat2 lon2 : ℚ) : ℝ :=
  Real.sin (rad (lat2 - lat1) / 2) * Real.sin (rad (lat2 - lat1) / 2) +
    Real.cos (rad lat1) * Real.cos (rad lat2) *
      Real.sin (rad (lon2 - lon1) / 2) * Real.sin (rad (lon2 - lon1) / 2)

/-- The haversine intermediate `c = 2 * atan2(sqrt(a), sqrt(1 - a))`. -/
noncomputable def haverC (lat1 lon1 lat2 lon2 : ℚ) : ℝ :=
  2 * atan2 (Real.sqrt (haverA lat1 lon1 lat2 lon2))
    (Real.sqrt (1 - haverA lat1 lon1 lat2 lon2))

/-- The function `calculateDistance`: haversine distance in meters with Earth
radius 6371000, rounded to the nearest integer (`Math.round(R * c)`). -/
noncomputable def calculateDistance (lat1 lon1 lat2 lon2 : ℚ) : ℤ :=
  round ((6371000 : ℝ) * haverC lat1 lon1 lat2 lon2)

/-! ### Filtering and ranking (`filteredCustomers`, `customersWithDistance`,
`sortedCustomers` in `index.tsx`) -/

/-- The method `toLowerCase` modelled on the character list of the string
(identical to `String.toLower`, stated structurally so that it evaluates by
kernel reduction). -/
def lowerStr (s : String) : String := ⟨s.data.map Char.toLower⟩

/-- The method `trim` modelled on the character list of the string: drop
whitespace from both ends. -/
def trimStr (s : String) : String :=
  ⟨((s.data.dropWhile Char.isWhitespace).reverse.dropWhile
    Char.isWhitespace).reverse⟩

/-- Boolean test that the pattern is an initial segment of the text. -/
def leadsWith : List Char → List Char → Bool
  | [], _ => true
  | _ :: _, [] => false
  | a :: as, b :: bs => a == b && leadsWith as bs

/-- Boolean substring containment, as `String.prototype.includes`: the
pattern occurs contiguously somewhere in the text (the empty pattern always
occurs). -/
def hasSub (q : List Char) : List Char → Bool
  | [] => q.isEmpty
  | c :: t => leadsWith q (c :: t) || hasSub q t

/-- Case-insensitive substring test `s.toLowerCase().includes(q)`, where `q`
is already lowercase. -/
def includesSub (s q : String) : Bool := hasSub q.data (lowerStr s).data

/-- Query match on one customer: the disjunction over name, address,
deliveryPerson and orderDetails from the `filteredCustomers` filter body; an
absent optional field is falsy, so it contributes `false`. -/
def matchesQuery (q : String) (c : Customer) : Bool :=
  includesSub c.name q || includesSub c.address q ||
    (match c.deliveryPerson with
      | some dp => includesSub dp q
      | none => false) ||
    (match c.orderDetails with
      | some od => includesSub od q
      | none => false)

/-- Query step of the `filteredCustomers` predicate: trim and lowercase the
search text; an empty result admits every customer. -/
def queryPass (searchQuery : String) (c : Customer) : Bool :=
  let q := lowerStr (trimStr searchQuery)
  if q = "" then true else matchesQuery q c

/-- Full `filteredCustomers` predicate: reject delivered status
(`(c.status || "").toLowerCase() === "delivered"`, and `"" || ""` is `""`
so the default collapses), then apply the query. -/
def customerPasses (searchQuery : String) (c : Customer) : Bool :=
  if lowerStr c.status = "delivered" then false else queryPass searchQuery c

/-- The list `filteredCustomers = customers.filter(...)`. -/
def filteredCustomers (customers : List Customer) (searchQuery : String) :
    List Customer :=
  customers.filter (customerPasses searchQuery)

/-- Distance attachment of `customersWithDistance`: a distance is computed
only under `currentLocation && c.latitude && c.longitude`, i.e. only when the
device location is known and both coordinates are truthy (non-null and
non-zero). -/
noncomputable def attachDistance (currentLocation : Option Loc) (c : Customer) :
    Ranked :=
  match currentLocation with
  | none => ⟨c, none⟩
  | some loc =>
      if truthy c.latitude && truthy c.longitude then
        ⟨c, some (calculateDistance loc.latitude loc.longitude
          (c.latitude.getD 0) (c.longitude.getD 0))⟩
      else ⟨c, none⟩

/-- The list `customersWithDistance = filteredCustomers.map(...)`. -/
noncomputable def customersWithDistance (customers : List Customer)
    (currentLocation : Option Loc) (searchQuery : String) : List Ranked :=
  (filteredCustomers customers searchQuery).map (attachDistance currentLocation)

/-- The comparator passed to `customersWithDistance.sort`: entries without a
distance compare equal to each other and greater than every entry with a
distance; two distances compare by subtraction. -/
def rankCmp (a b : Ranked) : ℤ :=
  match a.distance, b.distance with
  | none, none => 0
  | none, some _ => 1
  | some _, none => -1
  | some da, some db => da - db

/-- Non-strict order induced by the comparator (`rankCmp a b ≤ 0` means the
sort may keep `a` before `b`). -/
def rankLe (a b : Ranked) : Prop := rankCmp a b ≤ 0

instance : DecidableRel rankLe := fun a b => inferInstanceAs (Decidable (_ ≤ _))

instance : IsTotal Ranked rankLe :=
  ⟨fun a b => by
    rcases a with ⟨ca, _ | da⟩ <;> rcases b with ⟨cb, _ | db⟩ <;>
      simp [rankLe, rankCmp] <;> omega⟩

instance : IsTrans Ranked rankLe :=
  ⟨fun a b c hab hbc => by
    rcases a with ⟨ca, _ | da⟩ <;> rcases b with ⟨cb, _ | db⟩ <;>
      rcases c with ⟨cc, _ | dc⟩ <;> simp [rankLe, rankCmp] at * <;> omega⟩

/-- The list `sortedCustomers = customersWithDistance.sort(comparator)`.
`Array.prototype.sort` is a stable sort, and for the consistent comparator
`rankCmp` every stable sort returns the insertion sort by `rankLe`. -/
noncomputable def sortedCustomers (customers : List Customer)
    (currentLocation : Option Loc) (searchQuery : String) : List Ranked :=
  List.insertionSort rankLe
    (customersWithDistance customers currentLocation searchQuery)

/-! ### Nearest eligible customer (`getNearestCustomerInfo` in `index.tsx`) -/

/-- One `forEach` iteration of `getNearestCustomerInfo`: skip the customer
when a coordinate is falsy or the status is delivered; otherwise compare its
distance strictly against the running minimum.  The accumulator `none` plays
the role of `nearest = null, minDistance = Infinity`, and any finite distance
is below `Infinity`. -/
noncomputable def nearestStep (loc : Loc) (acc : Option NearestInfo)
    (c : Customer) : Option NearestInfo :=
  if ¬ (truthy c.latitude && truthy c.longitude) then acc
  else if lowerStr c.status = "delivered" then acc
  else
    let d := calculateDistance loc.latitude loc.longitude
      (c.latitude.getD 0) (c.longitude.getD 0)
    match acc with
    | none => some ⟨c, d⟩
    | some n => if d < n.distance then some ⟨c, d⟩ else acc

/-- The function `getNearestCustomerInfo`: `null` without a device location,
otherwise the fold of `nearestStep` over the full customer list. -/
noncomputable def getNearestCustomerInfo (customers : List Customer)
    (currentLocation : Option Loc) : Option NearestInfo :=
  match currentLocation with
  | none => none
  | some loc => customers.foldl (nearestStep loc) none

/-! ### Basic facts about the pipeline -/

/-- Attaching a distance never changes the customer payload. -/
theorem attachDistance_cust (currentLocation : Option Loc) (c : Customer) :
    (attachDistance currentLocation c).cust = c := by
  unfold attachDistance
  split
  · rfl
  · split <;> rfl

/-- The sorted output lists exactly the customers of `filteredCustomers`. -/
theorem mem_map_cust_sorted (cs : List Customer) (pos : Option Loc)
    (q : String) (c : Customer) :
    c ∈ (sortedCustomers cs pos q).map Ranked.cust ↔
      c ∈ filteredCustomers cs q := by
  have hperm : List.Perm ((sortedCustomers cs pos q).map Ranked.cust)
      ((customersWithDistance cs pos q).map Ranked.cust) :=
    (List.perm_insertionSort rankLe _).map Ranked.cust
  rw [hperm.mem_iff]
  unfold customersWithDistance
  rw [List.map_map]
  have hid : (Ranked.cust ∘ attachDistance pos) = id := by
    funext x
    simp [Function.comp, attachDistance_cust]
  rw [hid, List.map_id]

/-- Membership in `filteredCustomers` unfolded to the filter condition. -/
theorem mem_filteredCustomers (cs : List Customer) (q : String) (c : Customer) :
    c ∈ filteredCustomers cs q ↔
      c ∈ cs ∧ lowerStr c.status ≠ "delivered" ∧
        (lowerStr (trimStr q) = "" ∨ matchesQuery (lowerStr (trimStr q)) c = true) := by
  unfold filteredCustomers
  rw [List.mem_filter]
  unfold customerPasses queryPass
  by_cases hd : lowerStr c.status = "delivered"
  · simp [hd]
  · by_cases hq : lowerStr (trimStr q) = ""
    · simp [hd, hq]
    · simp [hd, hq]

/-- C2: no entry of the ranked output has delivered status, and the
`filteredCustomers` filter factors as the delivered-status exclusion followed
by the query filter, so delivered customers are removed before any query or
distance handling. -/
theorem filterAndRank_excludes_delivered (cs : List Customer)
    (pos : Option Loc) (q : String) :
    ((sortedCustomers cs pos q).all
      fun e => !(lowerStr e.cust.status == "delivered")) = true ∧
    filteredCustomers cs q =
      (cs.filter fun c => !(lowerStr c.status == "delivered")).filter
        (queryPass q) := by
  constructor
  · rw [List.all_eq_true]
    intro e he
    have hc : e.cust ∈ (sortedCustomers cs pos q).map Ranked.cust :=
      List.mem_map_of_mem Ranked.cust he
    rw [mem_map_cust_sorted] at hc
    rw [mem_filteredCustomers] at hc
    simpa using hc.2.1
  · unfold filteredCustomers
    rw [List.filter_filter]
    apply List.filter_congr
    intro c _
    unfold customerPasses
    by_cases hd : lowerStr c.status = "delivered"
    · simp [hd]
    · simp [hd]

/-- C6: a customer is retained by the ranking pipeline exactly when it occurs
in the input, is not delivered, and either the trimmed query is empty or some
of its name, address, deliveryPerson, orderDetails contains the lowercased
query as a substring (absent optional fields contribute no match). -/
theorem filterAndRank_query_semantics (cs : List Customer) (pos : Option Loc)
    (q : String) (c : Customer) :
    c ∈ (sortedCustomers cs pos q).map Ranked.cust ↔
      c ∈ cs ∧ lowerStr c.status ≠ "delivered" ∧
        (lowerStr (trimStr q) = "" ∨ matchesQuery (lowerStr (trimStr q)) c = true) := by
  rw [mem_map_cust_sorted, mem_filteredCustomers]

/-- A customer that is delivered or has a null coordinate is ignored by the
`forEach` body of `getNearestCustomerInfo`. -/
theorem nearestStep_skip (loc : Loc) (acc : Option NearestInfo) (c : Customer)
    (h : lowerStr c.status = "delivered" ∨ c.latitude = none ∨
      c.longitude = none) :
    nearestStep loc acc c = acc := by
  unfold nearestStep
  rcases h with h | h | h
  · by_cases ht : (truthy c.latitude && truthy c.longitude) = true
    · simp [ht, h]
    · simp [ht]
  · simp [truthy, h]
  · simp [truthy, h]

/-- C4: `getNearestCustomerInfo` returns null when the device position is
missing, and likewise when every customer is delivered or has a null
coordinate (in particular on the empty list); both are ordinary return
values. -/
theorem getNearestCustomerInfo_none (cs : List Customer) (pos : Option Loc)
    (h : pos = none ∨ ∀ c ∈ cs, lowerStr c.status = "delivered" ∨
      c.latitude = none ∨ c.longitude = none) :
    getNearestCustomerInfo cs pos = none := by
  rcases h with h | h
  · rw [h]; rfl
  · cases pos with
    | none => rfl
    | some loc =>
      unfold getNearestCustomerInfo
      have : ∀ l : List Customer, (∀ c ∈ l, lowerStr c.status = "delivered" ∨
          c.latitude = none ∨ c.longitude = none) →
          l.foldl (nearestStep loc) none = none := by
        intro l
        induction l with
        | nil => intro _; rfl
        | cons c t ih =>
          intro hl
          rw [List.foldl_cons, nearestStep_skip loc none c (hl c (by simp))]
          exact ih fun x hx => hl x (by simp [hx])
      exact this cs h

/-- Witness for C4 at the empty customer list with no device position. -/
theorem getNearestCustomerInfo_none_witness :
    ((none : Option Loc) = none ∨ ∀ c ∈ ([] : List Customer),
      lowerStr c.status = "delivered" ∨ c.latitude = none ∨
      c.longitude = none) ∧
    getNearestCustomerInfo [] none = none :=
  ⟨Or.inl rfl, getNearestCustomerInfo_none [] none (Or.inl rfl)⟩

/-! ### Eligibility for the nearest-customer scan -/

/-- A customer the `getNearestCustomerInfo` loop does not skip: both
coordinates truthy (present and non-zero) and status not delivered. -/
def eligible (c : Customer) : Prop :=
  truthy c.latitude = true ∧ truthy c.longitude = true ∧
    lowerStr c.status ≠ "delivered"

/-- Distance from the device location to a customer, as computed inside the
scan once the coordinate guards have passed. -/
noncomputable def distTo (loc : Loc) (c : Customer) : ℤ :=
  calculateDistance loc.latitude loc.longitude
    (c.latitude.getD 0) (c.longitude.getD 0)

/-- Any customer the scan produces was accepted by its guards. -/
theorem nearestStep_eligible (loc : Loc) (acc : Option NearestInfo)
    (c : Customer) (hacc : ∀ n, acc = some n → eligible n.cust) :
    ∀ n, nearestStep loc acc c = some n → eligible n.cust := by
  intro n h
  unfold nearestStep at h
  by_cases h1 : (truthy c.latitude && truthy c.longitude) = true
  · rw [if_neg (by simp [h1])] at h
    by_cases h2 : lowerStr c.status = "delivered"
    · rw [if_pos h2] at h
      exact hacc n h
    · rw [if_neg h2] at h
      obtain ⟨hl1, hl2⟩ : truthy c.latitude = true ∧
          truthy c.longitude = true := by simpa using h1
      cases acc with
      | none =>
        cases h
        exact ⟨hl1, hl2, h2⟩
      | some m =>
        dsimp only at h
        split at h
        · cases h
          exact ⟨hl1, hl2, h2⟩
        · exact hacc n h
  · rw [if_pos (by simp [h1])] at h
    exact hacc n h

/-- The whole scan only ever returns an eligible customer. -/
theorem foldl_nearestStep_eligible (loc : Loc) (cs : List Customer) :
    ∀ acc : Option NearestInfo, (∀ n, acc = some n → eligible n.cust) →
    ∀ n, cs.foldl (nearestStep loc) acc = some n → eligible n.cust := by
  induction cs with
  | nil => intro acc hacc n h; exact hacc n h
  | cons c t ih =>
    intro acc hacc n h
    rw [List.foldl_cons] at h
    exact ih (nearestStep loc acc c) (nearestStep_eligible loc acc c hacc) n h

/-- C9: a customer with latitude 0 or longitude 0 is treated as unlocated,
because presence is tested by numeric truthiness.  It never carries a
distance in the ranked output even when the device position is known, and the
nearest-customer scan never selects it. -/
theorem zero_coordinate_treated_as_unlocated (cs : List Customer)
    (pos : Option Loc) (q : String) (c : Customer)
    (h : c.latitude = some 0 ∨ c.longitude = some 0) :
    (∀ e ∈ sortedCustomers cs pos q, e.cust = c → e.distance = none) ∧
    (∀ n, getNearestCustomerInfo cs pos = some n → n.cust ≠ c) := by
  have hfalsy : truthy c.latitude = false ∨ truthy c.longitude = false := by
    rcases h with h | h
    · exact Or.inl (by simp [truthy, h])
    · exact Or.inr (by simp [truthy, h])
  constructor
  · intro e he hec
    have he2 : e ∈ customersWithDistance cs pos q :=
      (List.perm_insertionSort rankLe _).mem_iff.mp he
    unfold customersWithDistance at he2
    rcases List.mem_map.mp he2 with ⟨c0, _, hc0⟩
    have hc0c : c0 = c := by
      have := attachDistance_cust pos c0
      rw [hc0] at this
      rw [this] at hec
      exact hec.symm ▸ rfl
    subst hc0c
    subst hc0
    unfold attachDistance
    cases pos with
    | none => rfl
    | some loc =>
      have hcond : (truthy c0.latitude && truthy c0.longitude) = false := by
        rcases hfalsy with hf | hf <;> simp [hf]
      simp [hcond]
  · intro n hn
    have helig : eligible n.cust := by
      cases pos with
      | none => simp [getNearestCustomerInfo] at hn
      | some loc =>
        exact foldl_nearestStep_eligible loc cs none (by intro m hm; cases hm)
          n hn
    intro hcontra
    rw [hcontra] at helig
    rcases hfalsy with hf | hf
    · rw [helig.1] at hf; cases hf
    · rw [helig.2.1] at hf; cases hf

/-- Concrete customer for the C9 witness: pending, latitude exactly 0. -/
def equatorCustomer : Customer :=
  ⟨"c9", "Ann", "12 Equator Rd", some 0, some 1, none, none, "pending",
    "", "", ""⟩

/-- Witness for C9 at a single equator customer and device location (0,0). -/
theorem zero_coordinate_treated_as_unlocated_witness :
    (equatorCustomer.latitude = some 0 ∨
      equatorCustomer.longitude = some 0) ∧
    ((∀ e ∈ sortedCustomers [equatorCustomer] (some ⟨0, 0⟩) "",
        e.cust = equatorCustomer → e.distance = none) ∧
      (∀ n, getNearestCustomerInfo [equatorCustomer] (some ⟨0, 0⟩) = some n →
        n.cust ≠ equatorCustomer)) :=
  ⟨Or.inl rfl,
    zero_coordinate_treated_as_unlocated [equatorCustomer] (some ⟨0, 0⟩) ""
      equatorCustomer (Or.inl rfl)⟩

/-- On an eligible customer the scan body reduces to the strict running-min
update. -/
theorem nearestStep_eligible_eq (loc : Loc) (acc : Option NearestInfo)
    (c : Customer) (he : eligible c) :
    nearestStep loc acc c =
      match acc with
      | none => some ⟨c, distTo loc c⟩
      | some n => if distTo loc c < n.distance then some ⟨c, distTo loc c⟩
          else some n := by
  obtain ⟨h1, h2, h3⟩ := he
  unfold nearestStep
  rw [if_neg (by simp [h1, h2]), if_neg h3]
  cases acc <;> rfl

/-- A prefix whose eligible customers are all strictly farther than `dC`
leaves the accumulator empty or strictly above `dC`. -/
theorem foldl_nearestStep_far (loc : Loc) (dC : ℤ) (l : List Customer) :
    ∀ acc : Option NearestInfo,
    (acc = none ∨ ∃ n, acc = some n ∧ dC < n.distance) →
    (∀ c2 ∈ l, eligible c2 → dC < distTo loc c2) →
    (l.foldl (nearestStep loc) acc = none ∨
      ∃ n, l.foldl (nearestStep loc) acc = some n ∧ dC < n.distance) := by
  induction l with
  | nil => intro acc hacc _; exact hacc
  | cons c2 t ih =>
    intro acc hacc hl
    rw [List.foldl_cons]
    refine ih (nearestStep loc acc c2) ?_ fun x hx he => hl x (by simp [hx]) he
    by_cases he : eligible c2
    · rw [nearestStep_eligible_eq loc acc c2 he]
      have hfar : dC < distTo loc c2 := hl c2 (by simp) he
      rcases hacc with hacc | ⟨n, hacc, hn⟩
      · subst hacc
        exact Or.inr ⟨⟨c2, distTo loc c2⟩, rfl, hfar⟩
      · subst hacc
        dsimp only
        by_cases hlt : distTo loc c2 < n.distance
        · rw [if_pos hlt]
          exact Or.inr ⟨⟨c2, distTo loc c2⟩, rfl, hfar⟩
        · rw [if_neg hlt]
          exact Or.inr ⟨n, rfl, hn⟩
    · have hskip : nearestStep loc acc c2 = acc := by
        unfold nearestStep
        by_cases ht : (truthy c2.latitude && truthy c2.longitude) = true
        · rw [if_neg (by simp [ht])]
          rw [if_pos ?_]
          by_contra hd
          obtain ⟨ht1, ht2⟩ : truthy c2.latitude = true ∧
            truthy c2.longitude = true := by simpa using ht
          exact he ⟨ht1, ht2, hd⟩
        · rw [if_pos (by simp [ht])]
      rw [hskip]
      exact hacc
/-- Customers at distance at least the accumulator's never displace it. -/
theorem foldl_nearestStep_keep (loc : Loc) (n0 : NearestInfo)
    (l : List Customer)
    (hl : ∀ c2 ∈ l, eligible c2 → n0.distance ≤ distTo loc c2) :
    l.foldl (nearestStep loc) (some n0) = some n0 := by
  induction l with
  | nil => rfl
  | cons c2 t ih =>
    rw [List.foldl_cons]
    have hstep : nearestStep loc (some n0) c2 = some n0 := by
      by_cases he : eligible c2
      · rw [nearestStep_eligible_eq loc (some n0) c2 he]
        have hge : n0.distance ≤ distTo loc c2 := hl c2 (by simp) he
        dsimp only
        rw [if_neg (by omega)]
      · unfold nearestStep
        by_cases ht : (truthy c2.latitude && truthy c2.longitude) = true
        · rw [if_neg (by simp [ht])]
          rw [if_pos ?_]
          by_contra hd
          obtain ⟨ht1, ht2⟩ : truthy c2.latitude = true ∧
            truthy c2.longitude = true := by simpa using ht
          exact he ⟨ht1, ht2, hd⟩
        · rw [if_pos (by simp [ht])]
    rw [hstep]
    exact ih fun x hx he => hl x (by simp [hx]) he

/-- C5: the nearest-eligible scan returns the first customer, in input
order, that attains the minimal distance: every eligible customer before it
is strictly farther, every eligible customer after it is at least as far
(so an exact tie keeps the earlier customer, since the running minimum is
replaced only under strict less-than). -/
theorem nearest_first_min_wins (loc : Loc) (pre post : List Customer)
    (c : Customer) (hc : eligible c)
    (hpre : ∀ c2 ∈ pre, eligible c2 → distTo loc c < distTo loc c2)
    (hpost : ∀ c2 ∈ post, eligible c2 → distTo loc c ≤ distTo loc c2) :
    getNearestCustomerInfo (pre ++ c :: post) (some loc) =
      some ⟨c, distTo loc c⟩ := by
  unfold getNearestCustomerInfo
  dsimp only
  rw [List.foldl_append, List.foldl_cons]
  have hacc := foldl_nearestStep_far loc (distTo loc c) pre none
    (Or.inl rfl) hpre
  have hmid : nearestStep loc (pre.foldl (nearestStep loc) none) c =
      some ⟨c, distTo loc c⟩ := by
    rw [nearestStep_eligible_eq loc _ c hc]
    rcases hacc with h | ⟨n, h, hn⟩
    · rw [h]
    · rw [h]
      dsimp only
      rw [if_pos hn]
  rw [hmid]
  exact foldl_nearestStep_keep loc ⟨c, distTo loc c⟩ post hpost

/-- Concrete tied customers for the C5 witness: identical coordinates. -/
def tiedFirst : Customer :=
  ⟨"t1", "Ann", "1 Main St", some 1, some 1, none, none, "pending",
    "", "", ""⟩

/-- Second tied customer, same position as `tiedFirst`. -/
def tiedSecond : Customer :=
  ⟨"t2", "Ben", "2 Main St", some 1, some 1, none, none, "pending",
    "", "", ""⟩

/-- Witness for C5: two customers at the same point are equidistant from the
device, and the scan returns the first of them. -/
theorem nearest_first_min_wins_witness :
    eligible tiedFirst ∧
    (∀ c2 ∈ ([] : List Customer), eligible c2 →
      distTo ⟨3, 4⟩ tiedFirst < distTo ⟨3, 4⟩ c2) ∧
    (∀ c2 ∈ [tiedSecond], eligible c2 →
      distTo ⟨3, 4⟩ tiedFirst ≤ distTo ⟨3, 4⟩ c2) ∧
    getNearestCustomerInfo ([] ++ tiedFirst :: [tiedSecond]) (some ⟨3, 4⟩) =
      some ⟨tiedFirst, distTo ⟨3, 4⟩ tiedFirst⟩ := by
  have h1 : eligible tiedFirst := by
    refine ⟨rfl, rfl, ?_⟩
    decide
  have h2 : ∀ c2 ∈ ([] : List Customer), eligible c2 →
      distTo ⟨3, 4⟩ tiedFirst < distTo ⟨3, 4⟩ c2 := by
    intro c2 h
    cases h
  have h3 : ∀ c2 ∈ [tiedSecond], eligible c2 →
      distTo ⟨3, 4⟩ tiedFirst ≤ distTo ⟨3, 4⟩ c2 := by
    intro c2 h _
    rw [List.mem_singleton] at h
    subst h
    exact le_refl _
  exact ⟨h1, h2, h3, nearest_first_min_wins ⟨3, 4⟩ [] [tiedSecond] tiedFirst
    h1 h2 h3⟩

/-! ### Order and stability of the distance sort -/

/-- Entries with equal distance keys are tied in the comparator order. -/
theorem rankLe_of_dist_eq {a b : Ranked} (h : a.distance = b.distance) :
    rankLe a b := by
  rcases a with ⟨ca, _ | da⟩ <;> rcases b with ⟨cb, _ | db⟩ <;>
    simp_all [rankLe, rankCmp] <;> omega

/-- Inserting an element whose key misses the filter leaves the filtered
list unchanged. -/
theorem filter_orderedInsert_miss (d : Option ℤ) (x : Ranked)
    (hx : x.distance ≠ d) :
    ∀ L : List Ranked,
    (List.orderedInsert rankLe x L).filter (fun e => decide (e.distance = d)) =
      L.filter (fun e => decide (e.distance = d)) := by
  intro L
  induction L with
  | nil => simp [hx]
  | cons y t ih =>
    by_cases h : rankLe x y
    · rw [List.orderedInsert_of_le rankLe t h]
      simp [hx]
    · unfold List.orderedInsert
      rw [if_neg h]
      simp only [List.filter_cons]
      rw [ih]

/-- Inserting an element bearing the filtered key puts it in front of the
kept sublist: every element it may pass is not tied with it. -/
theorem filter_orderedInsert_hit (d : Option ℤ) (x : Ranked)
    (hx : x.distance = d) :
    ∀ L : List Ranked,
    (List.orderedInsert rankLe x L).filter (fun e => decide (e.distance = d)) =
      x :: L.filter (fun e => decide (e.distance = d)) := by
  intro L
  induction L with
  | nil => simp [hx]
  | cons y t ih =>
    by_cases h : rankLe x y
    · rw [List.orderedInsert_of_le rankLe t h]
      simp [hx]
    · have hy : y.distance ≠ d := by
        intro hyd
        exact h (rankLe_of_dist_eq (hx.trans hyd.symm))
      unfold List.orderedInsert
      rw [if_neg h]
      simp only [List.filter_cons]
      rw [ih]
      simp [hy]

/-- Insertion sort by the comparator order is stable: the sublist at any
fixed distance key is untouched. -/
theorem filter_insertionSort_key (d : Option ℤ) :
    ∀ L : List Ranked,
    (List.insertionSort rankLe L).filter (fun e => decide (e.distance = d)) =
      L.filter (fun e => decide (e.distance = d)) := by
  intro L
  induction L with
  | nil => rfl
  | cons x t ih =>
    show (List.orderedInsert rankLe x (List.insertionSort rankLe t)).filter
        (fun e => decide (e.distance = d)) = _
    by_cases hx : x.distance = d
    · rw [filter_orderedInsert_hit d x hx, ih]
      simp [hx]
    · rw [filter_orderedInsert_miss d x hx, ih]
      simp [hx]

/-- C1: the ranked output puts all distance-bearing entries before every
entry without a distance, is non-decreasing in the distance values, and is
stable: for every distance key, the entries carrying that key appear exactly
as in the pre-sort list `customersWithDistance`, which itself lists the
filtered input in input order. -/
theorem filterAndRank_sorted_and_stable (cs : List Customer)
    (pos : Option Loc) (q : String) :
    List.Pairwise (fun a b : Ranked => a.distance = none → b.distance = none)
      (sortedCustomers cs pos q) ∧
    List.Pairwise (fun a b : Ranked => ∀ da db : ℤ,
      a.distance = some da → b.distance = some db → da ≤ db)
      (sortedCustomers cs pos q) ∧
    (∀ d : Option ℤ,
      (sortedCustomers cs pos q).filter (fun e => decide (e.distance = d)) =
        (customersWithDistance cs pos q).filter
          (fun e => decide (e.distance = d))) := by
  have hsorted : List.Sorted rankLe (sortedCustomers cs pos q) :=
    List.sorted_insertionSort rankLe _
  refine ⟨?_, ?_, fun d => filter_insertionSort_key d _⟩
  · refine hsorted.imp ?_
    intro a b hab hnone
    rcases a with ⟨ca, _ | da⟩ <;> rcases b with ⟨cb, _ | db⟩ <;>
      simp_all [rankLe, rankCmp]
  · refine hsorted.imp ?_
    intro a b hab da db hda hdb
    rcases a with ⟨ca, _ | da2⟩ <;> rcases b with ⟨cb, _ | db2⟩ <;>
      simp_all [rankLe, rankCmp] <;> omega

/-! ### Properties of the haversine distance -/

/-- The haversine intermediate is symmetric in its two points. -/
theorem haverA_symm (lat1 lon1 lat2 lon2 : ℚ) :
    haverA lat2 lon2 lat1 lon1 = haverA lat1 lon1 lat2 lon2 := by
  unfold haverA rad
  have h1 : ((lat1 - lat2 : ℚ) : ℝ) = -((lat2 - lat1 : ℚ) : ℝ) := by
    push_cast; ring
  have h2 : ((lon1 - lon2 : ℚ) : ℝ) = -((lon2 - lon1 : ℚ) : ℝ) := by
    push_cast; ring
  rw [h1, h2]
  have hs : ∀ x : ℝ, Real.sin (-x * Real.pi / 180 / 2) =
      -Real.sin (x * Real.pi / 180 / 2) := by
    intro x
    rw [show -x * Real.pi / 180 / 2 = -(x * Real.pi / 180 / 2) by ring,
      Real.sin_neg]
  rw [hs ((lat2 - lat1 : ℚ) : ℝ), hs ((lon2 - lon1 : ℚ) : ℝ)]
  ring

/-- Swapping the two points leaves `calculateDistance` unchanged. -/
theorem calculateDistance_symm (lat1 lon1 lat2 lon2 : ℚ) :
    calculateDistance lat1 lon1 lat2 lon2 =
      calculateDistance lat2 lon2 lat1 lon1 := by
  unfold calculateDistance haverC
  rw [haverA_symm]

/-- The distance from a point to itself is zero. -/
theorem calculateDistance_self (lat lon : ℚ) :
    calculateDistance lat lon lat lon = 0 := by
  have ha : haverA lat lon lat lon = 0 := by
    unfold haverA rad
    simp
  unfold calculateDistance haverC
  rw [ha]
  rw [show (1 : ℝ) - 0 = 1 by ring, Real.sqrt_zero, Real.sqrt_one]
  have hz : atan2 0 1 = 0 := by
    unfold atan2
    have h1 : (⟨1, 0⟩ : ℂ) = 1 := rfl
    rw [h1, Complex.arg_one]
  rw [hz]
  simp

/-- The rounded distance is never negative: the angle returned by `atan2`
on a non-negative ordinate is non-negative. -/
theorem calculateDistance_nonneg (lat1 lon1 lat2 lon2 : ℚ) :
    0 ≤ calculateDistance lat1 lon1 lat2 lon2 := by
  unfold calculateDistance
  have hc : 0 ≤ haverC lat1 lon1 lat2 lon2 := by
    unfold haverC atan2
    have him : (0 : ℝ) ≤ (⟨Real.sqrt (1 - haverA lat1 lon1 lat2 lon2),
        Real.sqrt (haverA lat1 lon1 lat2 lon2)⟩ : ℂ).im :=
      Real.sqrt_nonneg _
    have harg := Complex.arg_nonneg_iff.mpr him
    linarith
  have hx : (0 : ℝ) ≤ 6371000 * haverC lat1 lon1 lat2 lon2 := by linarith
  rw [round_eq]
  refine Int.le_floor.mpr ?_
  push_cast
  linarith

/-- C7: within the documented coordinate ranges, `calculateDistance` is
symmetric in its two points, zero on the diagonal, and never negative. -/
theorem calculateDistance_props (lat1 lon1 lat2 lon2 : ℚ)
    (h1 : -90 ≤ lat1 ∧ lat1 ≤ 90) (h2 : -180 ≤ lon1 ∧ lon1 ≤ 180)
    (h3 : -90 ≤ lat2 ∧ lat2 ≤ 90) (h4 : -180 ≤ lon2 ∧ lon2 ≤ 180) :
    calculateDistance lat1 lon1 lat2 lon2 =
      calculateDistance lat2 lon2 lat1 lon1 ∧
    calculateDistance lat1 lon1 lat1 lon1 = 0 ∧
    0 ≤ calculateDistance lat1 lon1 lat2 lon2 :=
  ⟨calculateDistance_symm lat1 lon1 lat2 lon2,
    calculateDistance_self lat1 lon1,
    calculateDistance_nonneg lat1 lon1 lat2 lon2⟩

/-- Witness for C7 at two concrete in-range points. -/
theorem calculateDistance_props_witness :
    ((-90 : ℚ) ≤ 10 ∧ (10 : ℚ) ≤ 90) ∧ ((-180 : ℚ) ≤ 20 ∧ (20 : ℚ) ≤ 180) ∧
    ((-90 : ℚ) ≤ 30 ∧ (30 : ℚ) ≤ 90) ∧ ((-180 : ℚ) ≤ 40 ∧ (40 : ℚ) ≤ 180) ∧
    (calculateDistance 10 20 30 40 = calculateDistance 30 40 10 20 ∧
      calculateDistance 10 20 10 20 = 0 ∧
      0 ≤ calculateDistance 10 20 30 40) :=
  ⟨by decide, by decide, by decide, by decide,
    calculateDistance_props 10 20 30 40 (by decide) (by decide) (by decide)
      (by decide)⟩

/-! ### The spec example with the device at the origin -/

/-- Pending customer at the origin (latitude 0, longitude 0). -/
def exCustA : Customer :=
  ⟨"A", "A", "a street", some 0, some 0, none, none, "pending", "", "", ""⟩

/-- Pending customer on the equator at longitude 1. -/
def exCustB : Customer :=
  ⟨"B", "B", "b street", some 0, some 1, none, none, "pending", "", "", ""⟩

/-- Delivered customer on the equator at longitude 0.5. -/
def exCustC : Customer :=
  ⟨"C", "C", "c street", some 0, some (1/2), none, none, "delivered",
    "", "", ""⟩

/-- C3 evaluated on the code: with the device at (0,0) the truthiness test
on latitude 0 discards every coordinate pair, so the ranking returns A and B
without any distance (C is excluded as delivered) and the nearest-customer
scan returns null, not A at distance 0. -/
theorem spec_example_device_origin :
    sortedCustomers [exCustA, exCustB, exCustC] (some ⟨0, 0⟩) "" =
      [⟨exCustA, none⟩, ⟨exCustB, none⟩] ∧
    getNearestCustomerInfo [exCustA, exCustB, exCustC] (some ⟨0, 0⟩) =
      none := by
  constructor
  · rfl
  · rfl
